import Mathlib

/-!
Shallow embedding of the client-side data-access layer in
`src/phira/src/client.rs`: the response pipeline (`recv_raw`), the login
parameter serialization (`LoginParams`), the per-type object cache
(`Client::load` / `Client::fetch` / `Client::cache_objects`), the
type-erased cache registry, and the paginated query builder
(`QueryBuilder`).

External collaborators (the HTTP transport, `serde_json` parsing, JSON
deserialization of bodies) are modelled as explicit oracle functions passed
to the embedded operations; network calls are counted in an explicit world
state, and `Arc` allocation identity is modelled by stamping each freshly
allocated handle with a unique allocation counter value.
-/

namespace RenderLib

/-- JSON values, modelling `serde_json::Value` (numbers collapsed to `Int`;
their precise representation is irrelevant to the embedded code paths). -/
inductive Json where
  | null : Json
  | bool (b : Bool) : Json
  | num (n : Int) : Json
  | str (s : String) : Json
  | arr (elems : List Json) : Json
  | obj (fields : List (String × Json)) : Json

/-- Indexing `value[key]` on a `serde_json::Value` with a string key:
returns the field's value on an object that has the key, and `Null`
otherwise (missing key or non-object). -/
def Json.index (j : Json) (key : String) : Json :=
  match j with
  | .obj fields => (fields.lookup key).getD .null
  | _ => .null

/-- `Value::as_str`: `Some` exactly on JSON strings. -/
def Json.asStr : Json → Option String
  | .str s => some s
  | _ => none

/-- The keys of a JSON object (empty for non-objects); used to state which
fields appear on the wire. -/
def Json.objKeys : Json → List String
  | .obj fields => fields.map (fun f => f.1)
  | _ => []

/-- An HTTP response as the pipeline sees it: numeric status code and body
text. (`response.text()` is modelled as always yielding the body; its
transport-level failure path is orthogonal to every claim.) -/
structure Response where
  status : Nat
  body : String
deriving DecidableEq

/-- `reqwest::StatusCode::is_success`: 2xx. -/
def statusIsSuccess (s : Nat) : Bool :=
  decide (200 ≤ s ∧ s < 300)

/-- Embeds `recv_raw` (client.rs lines 49-61): on a success status return
the raw response; otherwise read the body text, try to parse it as JSON
(`parse` models `serde_json::from_str::<Value>`), and if it parses and
`what["detail"].as_str()` is a string, fail with
`"request failed: <detail>"`; in every other failure case fail with
`"request failed: <raw text>"`. -/
def recv_raw (parse : String → Option Json) (r : Response) : Except String Response :=
  if statusIsSuccess r.status then
    .ok r
  else
    match parse r.body with
    | some what =>
      match (what.index "detail").asStr with
      | some detail => .error ("request failed: " ++ detail)
      | none => .error ("request failed: " ++ r.body)
    | none => .error ("request failed: " ++ r.body)

/-- Embeds the `LoginParams` enum (client.rs lines 63-74): two variants,
`Password { email, password }` and `RefreshToken { token }` with `token`
renamed to `refreshToken` for serialization. -/
inductive LoginParams where
  | password (email : String) (pw : String) : LoginParams
  | refreshToken (token : String) : LoginParams
deriving DecidableEq

/-- Serialization of `LoginParams` under `#[derive(Serialize)]` with
`#[serde(untagged)]`: the active variant is serialized as a bare JSON
object holding exactly that variant's fields (no tag, no placeholders for
the other variant), with the field rename applied. -/
def LoginParams.serialize : LoginParams → Json
  | .password email pw => .obj [("email", .str email), ("password", .str pw)]
  | .refreshToken token => .obj [("refreshToken", .str token)]

/-- The request issued by `Client::login` (client.rs line 159):
`Self::post("/login", &params)` — path plus JSON body. -/
def login_request (params : LoginParams) : String × Json :=
  ("/login", params.serialize)

/-- A shared handle `Arc<T>`: the held value plus an allocation stamp that
models pointer identity (two handles are the identical shared instance
exactly when their stamps agree, since every `Arc::new` is given a fresh
stamp; `Arc::clone` copies the stamp). -/
structure Handle (T : Type) where
  val : T
  stamp : Nat
deriving DecidableEq

/-- Modelled from the spec: `ObjectMap<T>` lives in `model.rs`, which is
absent from the sources; the spec (§3) describes it as a mapping from
integer id to a shared handle with no eviction and no TTL, so it is
embedded as an association list with unique keys. The method semantics
follow the lru-crate API that the call sites in client.rs use: `put`
inserts or replaces, and `get_or_insert(id, f)` returns the existing entry
when one is present — only otherwise does it insert `f ()`. -/
abbrev ObjectMap (T : Type) : Type :=
  List (Int × Handle T)

/-- `ObjectMap::get` (as used by `Client::load`): lookup by id. -/
def ObjectMap.get (m : ObjectMap T) (id : Int) : Option (Handle T) :=
  List.lookup id m

/-- `ObjectMap::put`: insert or replace the entry for `id`. -/
def ObjectMap.put (m : ObjectMap T) (id : Int) (h : Handle T) : ObjectMap T :=
  m.filter (fun e => e.1 != id) ++ [(id, h)]

/-- `ObjectMap::get_or_insert(id, f)`: the existing entry when present,
otherwise insert and return `f ()`; yields the resulting handle and map. -/
def ObjectMap.get_or_insert (m : ObjectMap T) (id : Int) (f : Unit → Handle T) :
    Handle T × ObjectMap T :=
  match List.lookup id m with
  | some h => (h, m)
  | none => (f (), m.put id (f ()))

/-- Errors produced below `Client::fetch`, by provenance: a transport
failure of `request.send()`, the non-success-status failure raised by
`recv_raw` (message `"request failed: ..."`), or a failure of `.json()`
deserialization. In the source all are `anyhow` errors carrying the
message. -/
inductive ReqError where
  | transport (msg : String) : ReqError
  | status (msg : String) : ReqError
  | deser (msg : String) : ReqError
deriving DecidableEq

/-- Errors of `Client::fetch` / `Client::load`: a propagated lower-level
error, or the distinct `anyhow!("entry not found")` raised by `fetch`
when `fetch_inner` yields no value. -/
inductive FetchError where
  | req (e : ReqError) : FetchError
  | notFound : FetchError
deriving DecidableEq

/-- The message carried by a `FetchError` (`anyhow` error message). -/
def FetchError.message : FetchError → String
  | .req (.transport m) => m
  | .req (.status m) => m
  | .req (.deser m) => m
  | .notFound => "entry not found"

/-- Embeds `Client::fetch_inner` (client.rs lines 127-129):
`recv_raw(Self::get(format!("/{}/{id}", T::QUERY_PATH))).await?.json().await?`.
Oracles: `send id` models `request.send()` for the GET against the
type's collection path plus id (transport error or raw response);
`parse` models the JSON parse inside `recv_raw`; `deser` models
`.json::<Option<T>>()` on a successful response's body, where a JSON
`null` body deserializes to `none`. -/
def fetch_inner (parse : String → Option Json) (send : Int → Except String Response)
    (deser : String → Except String (Option T)) (id : Int) :
    Except ReqError (Option T) :=
  match send id with
  | .error m => .error (.transport m)
  | .ok r =>
    match recv_raw parse r with
    | .error m => .error (.status m)
    | .ok r2 =>
      match deser r2.body with
      | .error m => .error (.deser m)
      | .ok v => .ok v

/-- The state a cache operation for one resource type acts on: that type's
cache, the allocation counter backing handle stamps, and the number of
network calls performed so far. -/
structure World (T : Type) where
  cache : ObjectMap T
  allocCtr : Nat
  netCalls : Nat

namespace Client

/-- Embeds `Client::fetch` (client.rs lines 105-113): run `fetch_inner`
(one network call), fail with `"entry not found"` on a null value, wrap
the value in a fresh `Arc`, and `get_or_insert` it into the type's cache,
returning the handle the cache yields. -/
def fetch (parse : String → Option Json) (send : Int → Except String Response)
    (deser : String → Except String (Option T)) (id : Int) (w : World T) :
    Except FetchError (Handle T) × World T :=
  let w1 : World T := { w with netCalls := w.netCalls + 1 }
  match fetch_inner parse send deser id with
  | .error e => (.error (.req e), w1)
  | .ok none => (.error .notFound, w1)
  | .ok (some v) =>
    let h : Handle T := ⟨v, w1.allocCtr⟩
    let w2 : World T := { w1 with allocCtr := w1.allocCtr + 1 }
    let res := w2.cache.get_or_insert id (fun _ => h)
    (.ok res.1, { w2 with cache := res.2 })

/-- Embeds `Client::load` (client.rs lines 91-103): if the type's cache
has an entry for `id`, return a clone of that shared handle with no
network call; otherwise defer to `fetch`. -/
def load (parse : String → Option Json) (send : Int → Except String Response)
    (deser : String → Except String (Option T)) (id : Int) (w : World T) :
    Except FetchError (Handle T) × World T :=
  match w.cache.get id with
  | some h => (.ok h, w)
  | none => fetch parse send deser id w

/-- Embeds `Client::cache_objects` (client.rs lines 115-125): for each
object in order, `put` a freshly allocated handle keyed by the object's
own id (`idOf` models `Object::id`, declared in the absent `model.rs`;
the spec (§3) says every resource exposes an integer identifier). -/
def cache_objects (idOf : T → Int) : List T → World T → World T
  | [], w => w
  | obj :: rest, w =>
    cache_objects idOf rest
      { w with
        cache := w.cache.put (idOf obj) ⟨obj, w.allocCtr⟩
        allocCtr := w.allocCtr + 1 }

end Client

section Registry

-- Resource types indexed by their type identity (`TypeId` modelled as a
-- natural number); the registry stores one type-erased cache per identity.
variable (Res : Nat → Type)

/-- A type-erased cache storage (`Box<dyn Any>` holding an
`ObjectMap<T>`): the `TypeId` of the stored map's resource type together
with the map itself. -/
abbrev Erased : Type :=
  Σ t : Nat, ObjectMap (Res t)

/-- Modelled from the spec: the process-wide type registry (`CACHES` /
`obtain_map_cache` live in the absent `model.rs`; the spec (§3) describes
a process-wide mapping from resource-type identity to its untyped cache
storage, populated lazily). -/
abbrev Registry : Type :=
  List (Nat × Erased Res)

/-- `downcast_mut::<ObjectMap<T>>` on a type-erased storage: succeeds
exactly when the stored `TypeId` is the requested one. -/
def downcast (t : Nat) (e : Erased Res) : Option (ObjectMap (Res t)) :=
  if h : e.1 = t then some (h ▸ e.2) else none

/-- Modelled from the spec: `obtain_map_cache::<T>()` — return the
registry's storage for the type's identity, lazily creating an empty cache
for it on first access. -/
def obtain_map_cache (t : Nat) (reg : Registry Res) : Erased Res × Registry Res :=
  match List.lookup t reg with
  | some e => (e, reg)
  | none => (⟨t, []⟩, reg ++ [(t, ⟨t, []⟩)])

/-- The cache-access step shared by `Client::load`, `Client::fetch` and
`Client::cache_objects` (client.rs lines 93-95, 107-111, 116-120): obtain
the type's registry storage, then downcast it to the typed map; a `none`
first component means the `unreachable!()` branch was reached. -/
def cache_access_step (t : Nat) (reg : Registry Res) :
    Option (ObjectMap (Res t)) × Registry Res :=
  let res := obtain_map_cache Res t reg
  (downcast Res t res.1, res.2)

/-- The registry invariant (spec §3): each entry holds the cache storage
created for exactly the resource type it is keyed by. -/
def RegistryInv (reg : Registry Res) : Prop :=
  ∀ k e, (k, e) ∈ reg → e.1 = k

end Registry

/-- Embeds `QueryBuilder` (client.rs lines 176-181): the accumulated
filter map (`HashMap<Cow<str>, Cow<str>>`, embedded as an association
list kept canonical: unique keys, latest insertion last) and the optional
explicit zero-based page. The `PhantomData` type parameter is dropped; the
resource type only contributes the collection path of the final GET. -/
structure QueryBuilder where
  queries : List (String × String)
  pageField : Option Nat

/-- `HashMap::insert` on the filter map: keys stay unique, last write
wins. -/
def insertQuery (m : List (String × String)) (k v : String) : List (String × String) :=
  m.filter (fun e => e.1 != k) ++ [(k, v)]

namespace QueryBuilder

/-- `Client::query::<T>()` (client.rs lines 131-137): the fresh builder. -/
def new : QueryBuilder :=
  ⟨[], none⟩

/-- `QueryBuilder::query` (client.rs lines 184-187): set/overwrite a
string filter. -/
def query (b : QueryBuilder) (k v : String) : QueryBuilder :=
  { b with queries := insertQuery b.queries k v }

/-- `QueryBuilder::order` (client.rs lines 190-192): shorthand for the
`order` filter. -/
def order (b : QueryBuilder) (v : String) : QueryBuilder :=
  b.query "order" v

/-- `QueryBuilder::flag` (client.rs lines 194-197): set filter `name` to
the string `"1"`. -/
def flag (b : QueryBuilder) (name : String) : QueryBuilder :=
  { b with queries := insertQuery b.queries name "1" }

/-- `QueryBuilder::page_num` (client.rs lines 200-202): shorthand for the
`page_num` filter. -/
def page_num (b : QueryBuilder) (n : Nat) : QueryBuilder :=
  b.query "page_num" (toString n)

/-- `QueryBuilder::page` (client.rs lines 204-207): set the explicit
zero-based page index (a builder field, not a filter; the source names
both the field and this method `page`). -/
def page (b : QueryBuilder) (n : Nat) : QueryBuilder :=
  { b with pageField := some n }

/-- The filter map of the request issued by `QueryBuilder::send`
(client.rs line 210): before the GET is issued,
`self.queries.insert("page", (self.page.unwrap_or(0) + 1).to_string())`. -/
def sendQueries (b : QueryBuilder) : List (String × String) :=
  insertQuery b.queries "page" (toString (b.pageField.getD 0 + 1))

end QueryBuilder

/-! Helper lemmas about association-list lookup under the canonical
insert used by `ObjectMap.put` and `insertQuery`. -/

theorem lookup_append {α β : Type} [DecidableEq α] (k : α) (l1 l2 : List (α × β)) :
    List.lookup k (l1 ++ l2) =
      ((List.lookup k l1).rec (List.lookup k l2) (fun h => some h)) := by
  induction l1 with
  | nil => simp [List.lookup]
  | cons e es ih =>
    by_cases hk : k = e.1
    · simp [List.lookup, hk]
    · simp [List.lookup, beq_false_of_ne hk, ih]

theorem lookup_filter_self {α β : Type} [DecidableEq α] (m : List (α × β)) (k : α) :
    List.lookup k (m.filter (fun e => e.1 != k)) = none := by
  induction m with
  | nil => simp
  | cons e es ih =>
    by_cases hk : e.1 = k
    · have hb : (e.1 != k) = false := by simp [bne, hk]
      simp [List.filter_cons, hb, ih]
    · have hb : (e.1 != k) = true := by simp [bne, hk]
      simp [List.filter_cons, hb, List.lookup, beq_false_of_ne (Ne.symm hk), ih]

theorem lookup_filter_other {α β : Type} [DecidableEq α] (m : List (α × β)) (k k2 : α)
    (hne : k2 ≠ k) :
    List.lookup k2 (m.filter (fun e => e.1 != k)) = List.lookup k2 m := by
  induction m with
  | nil => simp
  | cons e es ih =>
    by_cases hk : e.1 = k
    · have hb : (e.1 != k) = false := by simp [bne, hk]
      have hne2 : k2 ≠ e.1 := by rw [hk]; exact hne
      simp [List.filter_cons, hb, List.lookup, beq_false_of_ne hne2, ih]
    · have hb : (e.1 != k) = true := by simp [bne, hk]
      by_cases hk2 : k2 = e.1
      · subst hk2
        simp [List.filter_cons, hb, List.lookup]
      · simp [List.filter_cons, hb, List.lookup, beq_false_of_ne hk2, ih]

theorem ObjectMap.get_put_same (m : ObjectMap T) (id : Int) (h : Handle T) :
    (m.put id h).get id = some h := by
  simp [ObjectMap.get, ObjectMap.put, lookup_append, lookup_filter_self, List.lookup]

theorem ObjectMap.get_put_other (m : ObjectMap T) (id id2 : Int) (h : Handle T)
    (hne : id2 ≠ id) : (m.put id h).get id2 = m.get id2 := by
  simp [ObjectMap.get, ObjectMap.put, lookup_append, lookup_filter_other m id id2 hne]
  cases hm : List.lookup id2 m with
  | none => simp [List.lookup, beq_false_of_ne hne]
  | some v => simp

theorem lookup_insertQuery_same (m : List (String × String)) (k v : String) :
    List.lookup k (insertQuery m k v) = some v := by
  simp [insertQuery, lookup_append, lookup_filter_self, List.lookup]

theorem lookup_insertQuery_other (m : List (String × String)) (k k2 v : String)
    (hne : k2 ≠ k) : List.lookup k2 (insertQuery m k v) = List.lookup k2 m := by
  simp [insertQuery, lookup_append, lookup_filter_other m k k2 hne]
  cases hm : List.lookup k2 m with
  | none => simp [List.lookup, beq_false_of_ne hne]
  | some w => simp

theorem countKey_insertQuery_same (m : List (String × String)) (k v : String) :
    (insertQuery m k v).countP (fun e => e.1 == k) = 1 := by
  have hz : ∀ l : List (String × String),
      (l.filter (fun e => e.1 != k)).countP (fun e => e.1 == k) = 0 := by
    intro l
    induction l with
    | nil => simp
    | cons e es ih =>
      by_cases hk : e.1 = k
      · have hb : (e.1 != k) = false := by simp [bne, hk]
        simp [List.filter_cons, hb, ih]
      · have hb : (e.1 != k) = true := by simp [bne, hk]
        simp [List.filter_cons, hb, List.countP_cons, hk, ih]
  simp [insertQuery, List.countP_append, hz, List.countP_cons]

/-! Helper lemmas characterizing `Client.fetch`, `Client.load` and
`Client.cache_objects` on each branch. -/

theorem Client.fetch_of_error {parse : String → Option Json}
    {send : Int → Except String Response} {deser : String → Except String (Option T)}
    {id : Int} {e : ReqError} (w : World T)
    (he : fetch_inner parse send deser id = .error e) :
    Client.fetch parse send deser id w =
      (.error (.req e), { w with netCalls := w.netCalls + 1 }) := by
  simp [Client.fetch, he]

theorem Client.fetch_of_none {parse : String → Option Json}
    {send : Int → Except String Response} {deser : String → Except String (Option T)}
    {id : Int} (w : World T)
    (hn : fetch_inner parse send deser id = .ok none) :
    Client.fetch parse send deser id w =
      (.error .notFound, { w with netCalls := w.netCalls + 1 }) := by
  simp [Client.fetch, hn]

theorem Client.fetch_of_some_miss {parse : String → Option Json}
    {send : Int → Except String Response} {deser : String → Except String (Option T)}
    {id : Int} {v : T} (w : World T)
    (hv : fetch_inner parse send deser id = .ok (some v))
    (hmiss : w.cache.get id = none) :
    Client.fetch parse send deser id w =
      (.ok ⟨v, w.allocCtr⟩,
       { w with
         cache := w.cache.put id ⟨v, w.allocCtr⟩
         allocCtr := w.allocCtr + 1
         netCalls := w.netCalls + 1 }) := by
  have hl : List.lookup id w.cache = none := hmiss
  simp [Client.fetch, hv, ObjectMap.get_or_insert, hl]

theorem Client.fetch_of_some_hit {parse : String → Option Json}
    {send : Int → Except String Response} {deser : String → Except String (Option T)}
    {id : Int} {v : T} {h : Handle T} (w : World T)
    (hv : fetch_inner parse send deser id = .ok (some v))
    (hhit : w.cache.get id = some h) :
    Client.fetch parse send deser id w =
      (.ok h,
       { w with
         allocCtr := w.allocCtr + 1
         netCalls := w.netCalls + 1 }) := by
  have hl : List.lookup id w.cache = some h := hhit
  simp [Client.fetch, hv, ObjectMap.get_or_insert, hl]

theorem Client.load_of_hit {parse : String → Option Json}
    {send : Int → Except String Response} {deser : String → Except String (Option T)}
    {id : Int} {h : Handle T} (w : World T) (hhit : w.cache.get id = some h) :
    Client.load parse send deser id w = (.ok h, w) := by
  simp [Client.load, hhit]

theorem Client.load_of_miss {parse : String → Option Json}
    {send : Int → Except String Response} {deser : String → Except String (Option T)}
    {id : Int} (w : World T) (hmiss : w.cache.get id = none) :
    Client.load parse send deser id w = Client.fetch parse send deser id w := by
  simp [Client.load, hmiss]

theorem Client.cache_objects_netCalls (idOf : T → Int) (objects : List T) (w : World T) :
    (Client.cache_objects idOf objects w).netCalls = w.netCalls := by
  induction objects generalizing w with
  | nil => rfl
  | cons obj rest ih => simp [Client.cache_objects, ih]

theorem Client.cache_objects_get_untouched (idOf : T → Int) (objects : List T)
    (w : World T) (k : Int) (hk : ∀ o, o ∈ objects → idOf o ≠ k) :
    (Client.cache_objects idOf objects w).cache.get k = w.cache.get k := by
  induction objects generalizing w with
  | nil => rfl
  | cons obj rest ih =>
    have hobj : idOf obj ≠ k := hk obj (List.mem_cons_self obj rest)
    have hrest : ∀ o, o ∈ rest → idOf o ≠ k := fun o ho => hk o (List.mem_cons_of_mem _ ho)
    rw [Client.cache_objects, ih _ hrest]
    exact ObjectMap.get_put_other _ _ _ _ (fun hkk => hobj hkk.symm)

theorem Client.cache_objects_get_cases (idOf : T → Int) (objects : List T)
    (w : World T) (k : Int) :
    ((Client.cache_objects idOf objects w).cache.get k = w.cache.get k
      ∧ ∀ o, o ∈ objects → idOf o ≠ k)
    ∨ (∃ h : Handle T,
        (Client.cache_objects idOf objects w).cache.get k = some h
        ∧ h.val ∈ objects ∧ idOf h.val = k) := by
  induction objects generalizing w with
  | nil => exact .inl ⟨rfl, fun o ho => absurd ho (List.not_mem_nil o)⟩
  | cons obj rest ih =>
    rw [Client.cache_objects]
    rcases ih ({ w with
        cache := w.cache.put (idOf obj) ⟨obj, w.allocCtr⟩
        allocCtr := w.allocCtr + 1 }) with ⟨heq, hnone⟩ | ⟨h, hget, hmem, hid⟩
    · by_cases hobj : idOf obj = k
      · refine .inr ⟨⟨obj, w.allocCtr⟩, ?_, List.mem_cons_self obj rest, hobj⟩
        rw [heq]
        simp only
        rw [hobj]
        exact ObjectMap.get_put_same _ _ _
      · refine .inl ⟨?_, ?_⟩
        · rw [heq]
          exact ObjectMap.get_put_other _ _ _ _ (fun hkk => hobj hkk.symm)
        · intro o ho
          rcases List.mem_cons.mp ho with rfl | ho2
          · exact hobj
          · exact hnone o ho2
    · exact .inr ⟨h, hget, List.mem_cons_of_mem _ hmem, hid⟩

theorem Client.cache_objects_get_nodup (idOf : T → Int) (objects : List T) :
    ∀ w : World T, (objects.map idOf).Nodup → ∀ v, v ∈ objects →
      ∃ h : Handle T,
        (Client.cache_objects idOf objects w).cache.get (idOf v) = some h
        ∧ h.val = v := by
  induction objects with
  | nil =>
    intro w _ v hv
    exact absurd hv (List.not_mem_nil v)
  | cons obj rest ih =>
    intro w hnd v hv
    have hnd2 : idOf obj ∉ rest.map idOf ∧ (rest.map idOf).Nodup := by
      rw [List.map_cons] at hnd
      exact List.nodup_cons.mp hnd
    rw [Client.cache_objects]
    rcases List.mem_cons.mp hv with rfl | hv2
    · have hrest : ∀ o, o ∈ rest → idOf o ≠ idOf v := by
        intro o ho heq
        have : idOf v ∈ rest.map idOf := heq ▸ List.mem_map_of_mem idOf ho
        exact hnd2.1 this
      refine ⟨⟨v, w.allocCtr⟩, ?_, rfl⟩
      rw [Client.cache_objects_get_untouched idOf rest _ _ hrest]
      exact ObjectMap.get_put_same _ _ _
    · exact ih _ hnd2.2 v hv2

theorem lookup_mem {α β : Type} [DecidableEq α] {l : List (α × β)} {k : α} {v : β}
    (h : List.lookup k l = some v) : (k, v) ∈ l := by
  induction l with
  | nil => simp [List.lookup] at h
  | cons e es ih =>
    obtain ⟨a, b⟩ := e
    by_cases hk : k = a
    · subst hk
      simp [List.lookup] at h
      subst h
      exact List.mem_cons_self _ _
    · simp [List.lookup, beq_false_of_ne hk] at h
      exact List.mem_cons_of_mem _ (ih h)

theorem obtain_map_cache_spec (Res : Nat → Type) (t : Nat) (reg : Registry Res)
    (hinv : RegistryInv Res reg) :
    (obtain_map_cache Res t reg).1.1 = t
    ∧ RegistryInv Res (obtain_map_cache Res t reg).2 := by
  cases hl : List.lookup t reg with
  | some e =>
    refine ⟨?_, ?_⟩
    · simp only [obtain_map_cache, hl]
      exact hinv t e (lookup_mem hl)
    · simpa only [obtain_map_cache, hl] using hinv
  | none =>
    refine ⟨?_, ?_⟩
    · simp [obtain_map_cache, hl]
    · simp only [obtain_map_cache, hl]
      intro k e hm
      rcases List.mem_append.mp hm with hm1 | hm2
      · exact hinv k e hm1
      · have heq := List.mem_singleton.mp hm2
        cases heq
        rfl

theorem downcast_of_tag (Res : Nat → Type) (t : Nat) (e : Erased Res)
    (he : e.1 = t) : (downcast Res t e).isSome = true := by
  simp [downcast, he]

theorem recv_raw_success (parse : String → Option Json) (r : Response)
    (hss : statusIsSuccess r.status = true) : recv_raw parse r = .ok r := by
  simp [recv_raw, hss]

theorem recv_raw_failure (parse : String → Option Json) (r : Response)
    (hss : statusIsSuccess r.status = false) :
    ∃ m, recv_raw parse r = .error m := by
  simp [recv_raw, hss]
  cases hp : parse r.body with
  | none => exact ⟨"request failed: " ++ r.body, by simp⟩
  | some what =>
    cases hd : (what.index "detail").asStr with
    | none => exact ⟨"request failed: " ++ r.body, by simp [hd]⟩
    | some d => exact ⟨"request failed: " ++ d, by simp [hd]⟩

theorem fetch_inner_of_send_ok {send : Int → Except String Response} {id : Int}
    {r : Response} (parse : String → Option Json)
    (deser : String → Except String (Option T)) (hs : send id = .ok r) :
    fetch_inner parse send deser id =
      (match recv_raw parse r with
       | .error m => .error (.status m)
       | .ok r2 =>
         match deser r2.body with
         | .error m => .error (.deser m)
         | .ok v => .ok v) := by
  rw [fetch_inner, hs]

/-! The claims. -/

/-- Claim C4: for every response whose HTTP status is not a success, the
pipeline fails with `"request failed: <detail>"` when the body parses as
JSON containing a string field `detail`, and with
`"request failed: <raw body text>"` otherwise (including when the body is
valid JSON but `detail` is absent or not a string); for every
success-status response, `recv_raw` returns the raw response without
error. -/
theorem C4_recv_raw_error_normalization (parse : String → Option Json) (r : Response) :
    (statusIsSuccess r.status = true → recv_raw parse r = .ok r)
    ∧ (statusIsSuccess r.status = false →
        ∀ what detail, parse r.body = some what →
          (what.index "detail").asStr = some detail →
          recv_raw parse r = .error ("request failed: " ++ detail))
    ∧ (statusIsSuccess r.status = false →
        (∀ what, parse r.body = some what → (what.index "detail").asStr = none) →
        recv_raw parse r = .error ("request failed: " ++ r.body)) := by
  refine ⟨?_, ?_, ?_⟩
  · intro hs
    simp [recv_raw, hs]
  · intro hs what detail hp hd
    simp [recv_raw, hs, hp, hd]
  · intro hs hnone
    cases hp : parse r.body with
    | none => simp [recv_raw, hs, hp]
    | some what => simp [recv_raw, hs, hp, hnone what hp]

/-- Witness for C4: a 401 response whose body parses to
`{"detail": "invalid token"}` yields exactly
`request failed: invalid token`; a 500 response whose body is not JSON
yields the raw text; a 200 response passes through. -/
theorem C4_witness :
    recv_raw (fun _ => some (.obj [("detail", .str "invalid token")])) ⟨401, "body"⟩
      = .error ("request failed: " ++ "invalid token")
    ∧ recv_raw (fun _ => none) ⟨500, "plain text error"⟩
      = .error ("request failed: " ++ "plain text error")
    ∧ recv_raw (fun _ => none) ⟨200, "x"⟩ = .ok ⟨200, "x"⟩ := by
  refine ⟨?_, ?_, ?_⟩
  · exact (C4_recv_raw_error_normalization _ _).2.1 (by decide) _ _ rfl rfl
  · exact (C4_recv_raw_error_normalization _ _).2.2 (by decide) (fun what hw => by cases hw)
  · exact (C4_recv_raw_error_normalization _ _).1 (by decide)

/-- Claim C7: the serialized login body contains exactly the fields of the
chosen parameter variant and no others: `Password` serializes only the
keys `email` and `password`, `RefreshToken` serializes only the key
`refreshToken`; no null placeholders for the unused variant's fields
appear. -/
theorem C7_login_body_exact_fields (email pw token : String) :
    (login_request (.password email pw)).2.objKeys = ["email", "password"]
    ∧ (login_request (.refreshToken token)).2.objKeys = ["refreshToken"]
    ∧ (login_request (.password email pw)).1 = "/login"
    ∧ (login_request (.refreshToken token)).1 = "/login" :=
  ⟨rfl, rfl, rfl, rfl⟩

/-- Claim C5: `send()` injects a `page` filter equal to the explicit
zero-based page (defaulting to 0 when `page` was never called) plus 1; in
particular `page(0).send()` issues wire query `page=1` and
`page(2).send()` issues `page=3`. -/
theorem C5_send_page_one_based (b : QueryBuilder) :
    List.lookup "page" b.sendQueries = some (toString (b.pageField.getD 0 + 1))
    ∧ List.lookup "page" (QueryBuilder.new.page 0).sendQueries = some "1"
    ∧ List.lookup "page" (QueryBuilder.new.page 2).sendQueries = some "3"
    ∧ List.lookup "page" QueryBuilder.new.sendQueries = some "1" :=
  ⟨lookup_insertQuery_same _ _ _, by decide, by decide, by decide⟩

/-- Claim C6: filter keys are unique and last write wins: `flag(name)`
sets filter `name` to the string `"1"`, and a later `query(name, v)` on
the same builder overwrites that filter's value to `v`; in particular
`flag("mine")` followed by `query("mine", "x")` yields a single filter
`mine=x`. -/
theorem C6_flag_then_query_overwrites (b : QueryBuilder) (name v : String) :
    List.lookup name (b.flag name).queries = some "1"
    ∧ List.lookup name ((b.flag name).query name v).queries = some v
    ∧ ((b.flag name).query name v).queries.countP (fun e => e.1 == name) = 1
    ∧ List.lookup "mine" ((QueryBuilder.new.flag "mine").query "mine" "x").queries
        = some "x"
    ∧ ((QueryBuilder.new.flag "mine").query "mine" "x").queries = [("mine", "x")] :=
  ⟨lookup_insertQuery_same _ _ _, lookup_insertQuery_same _ _ _,
   countKey_insertQuery_same _ _ _, by decide, by decide⟩

/-- Claim C10: `send()` unconditionally overwrites the `page` key in the
filter map: a filter set via `query("page", v)` has no effect on the
issued request, whose `page` value is always
(explicit zero-based page, defaulting to 0) plus 1. -/
theorem C10_send_overwrites_page_filter (b : QueryBuilder) (v : String) :
    (b.query "page" v).sendQueries = b.sendQueries
    ∧ List.lookup "page" b.sendQueries = some (toString (b.pageField.getD 0 + 1)) := by
  refine ⟨?_, lookup_insertQuery_same _ _ _⟩
  simp [QueryBuilder.sendQueries, QueryBuilder.query, insertQuery, List.filter_append,
    List.filter_filter]

/-- Claim C1 (amended): for every resource type and id, `fetch(id)`
performs the network GET, deserializes the body, wraps it in a shared
handle, and inserts that handle into the type's cache only when no entry
for `id` exists; it returns the cache's entry for `id` afterwards — the
pre-existing handle when one was already present (the freshly fetched
value is discarded), the newly inserted handle otherwise. -/
theorem C1_fetch_inserts_only_if_absent (parse : String → Option Json)
    (send : Int → Except String Response) (deser : String → Except String (Option T))
    (id : Int) (v : T) (w : World T)
    (hv : fetch_inner parse send deser id = .ok (some v)) :
    (Client.fetch parse send deser id w).2.netCalls = w.netCalls + 1
    ∧ (w.cache.get id = none →
        (Client.fetch parse send deser id w).1 = .ok (⟨v, w.allocCtr⟩ : Handle T)
        ∧ (Client.fetch parse send deser id w).2.cache.get id
            = some (⟨v, w.allocCtr⟩ : Handle T))
    ∧ (∀ h, w.cache.get id = some h →
        (Client.fetch parse send deser id w).1 = .ok h
        ∧ (Client.fetch parse send deser id w).2.cache = w.cache) := by
  refine ⟨?_, ?_, ?_⟩
  · cases hc : w.cache.get id with
    | none => rw [Client.fetch_of_some_miss w hv hc]
    | some h => rw [Client.fetch_of_some_hit w hv hc]
  · intro hm
    rw [Client.fetch_of_some_miss w hv hm]
    exact ⟨rfl, ObjectMap.get_put_same _ _ _⟩
  · intro h hh
    rw [Client.fetch_of_some_hit w hv hh]
    exact ⟨rfl, rfl⟩

/-- Counterexample to claim C1 as stated: the cache already holds an entry
with value 10 for id 5, the network GET succeeds and deserializes to 20,
yet `fetch(5)` returns the old handle (value 10, stamp 0) and the cache
entry for 5 is unchanged — `fetch` neither overwrites the existing entry
nor returns a handle of the newly fetched value. -/
theorem C1_counterexample :
    fetch_inner (fun _ => none) (fun _ => .ok ⟨200, "20"⟩)
        (fun _ => .ok (some (20 : Nat))) 5 = .ok (some 20)
    ∧ (Client.fetch (fun _ => none) (fun _ => .ok ⟨200, "20"⟩)
        (fun _ => .ok (some (20 : Nat))) 5 ⟨[(5, ⟨10, 0⟩)], 1, 0⟩).1 = .ok ⟨10, 0⟩
    ∧ (Client.fetch (fun _ => none) (fun _ => .ok ⟨200, "20"⟩)
        (fun _ => .ok (some (20 : Nat))) 5 ⟨[(5, ⟨10, 0⟩)], 1, 0⟩).2.cache.get 5
        = some ⟨10, 0⟩
    ∧ (10 : Nat) ≠ 20 :=
  ⟨rfl, rfl, rfl, by decide⟩

/-- Witness for C1 (amended): fetching id 5 into an empty cache performs
one network call, inserts the fetched value 20 with a fresh handle, and
returns that handle. -/
theorem C1_witness :
    (Client.fetch (fun _ => none) (fun _ => .ok ⟨200, "20"⟩)
        (fun _ => .ok (some (20 : Nat))) 5 ⟨[], 0, 0⟩).1 = .ok ⟨20, 0⟩
    ∧ (Client.fetch (fun _ => none) (fun _ => .ok ⟨200, "20"⟩)
        (fun _ => .ok (some (20 : Nat))) 5 ⟨[], 0, 0⟩).2.cache.get 5 = some ⟨20, 0⟩
    ∧ (Client.fetch (fun _ => none) (fun _ => .ok ⟨200, "20"⟩)
        (fun _ => .ok (some (20 : Nat))) 5 ⟨[], 0, 0⟩).2.netCalls = 0 + 1 := by
  have h := C1_fetch_inserts_only_if_absent (fun _ => none) (fun _ => .ok ⟨200, "20"⟩)
      (fun _ => .ok (some (20 : Nat))) 5 20 ⟨[], 0, 0⟩ rfl
  exact ⟨(h.2.1 rfl).1, (h.2.1 rfl).2, h.1⟩

/-- Claim C2: if an entry for `id` exists in the type's cache, `load(id)`
returns that shared handle with no network call and no state change;
otherwise `load(id)` performs `fetch(id)` and returns its result.
Consequently, starting with no cache entry for `id` and a network that
yields a value, two sequential `load(id)` calls perform exactly one
network call and both return the identical shared instance (same handle,
same allocation stamp). -/
theorem C2_load_memoization (parse : String → Option Json)
    (send : Int → Except String Response) (deser : String → Except String (Option T))
    (id : Int) (w : World T) :
    (∀ h, w.cache.get id = some h → Client.load parse send deser id w = (.ok h, w))
    ∧ (w.cache.get id = none →
        Client.load parse send deser id w = Client.fetch parse send deser id w)
    ∧ (∀ v, w.cache.get id = none → fetch_inner parse send deser id = .ok (some v) →
        (Client.load parse send deser id w).1 = .ok (⟨v, w.allocCtr⟩ : Handle T)
        ∧ (Client.load parse send deser id w).2.netCalls = w.netCalls + 1
        ∧ Client.load parse send deser id ((Client.load parse send deser id w).2)
            = ((Client.load parse send deser id w).1,
               (Client.load parse send deser id w).2)) := by
  refine ⟨fun h hh => Client.load_of_hit w hh, fun hm => Client.load_of_miss w hm, ?_⟩
  intro v hm hv
  rw [Client.load_of_miss w hm, Client.fetch_of_some_miss w hv hm]
  exact ⟨rfl, rfl, Client.load_of_hit _ (ObjectMap.get_put_same _ _ _)⟩

/-- Witness for C2: from an empty cache, the first `load(5)` fetches the
value 20 over the network (one call), the second `load(5)` returns the
identical handle and leaves the world untouched. -/
theorem C2_witness :
    (Client.load (fun _ => none) (fun _ => .ok ⟨200, "20"⟩)
        (fun _ => .ok (some (20 : Nat))) 5 ⟨[], 0, 0⟩).1 = .ok ⟨20, 0⟩
    ∧ (Client.load (fun _ => none) (fun _ => .ok ⟨200, "20"⟩)
        (fun _ => .ok (some (20 : Nat))) 5 ⟨[], 0, 0⟩).2.netCalls = 0 + 1
    ∧ Client.load (fun _ => none) (fun _ => .ok ⟨200, "20"⟩)
        (fun _ => .ok (some (20 : Nat))) 5
        ((Client.load (fun _ => none) (fun _ => .ok ⟨200, "20"⟩)
            (fun _ => .ok (some (20 : Nat))) 5 ⟨[], 0, 0⟩).2)
      = ((Client.load (fun _ => none) (fun _ => .ok ⟨200, "20"⟩)
            (fun _ => .ok (some (20 : Nat))) 5 ⟨[], 0, 0⟩).1,
         (Client.load (fun _ => none) (fun _ => .ok ⟨200, "20"⟩)
            (fun _ => .ok (some (20 : Nat))) 5 ⟨[], 0, 0⟩).2) :=
  (C2_load_memoization (fun _ => none) (fun _ => .ok ⟨200, "20"⟩)
      (fun _ => .ok (some (20 : Nat))) 5 ⟨[], 0, 0⟩).2.2 20 rfl rfl

/-- Claim C3: `cache_objects` performs no network call and inserts or
overwrites a cache entry for each value keyed by that value's own id;
afterwards `load` of any of those ids returns the cached handle with no
network call and no state change. When the ids in the batch are pairwise
distinct, the cached value for each id is exactly the batch's value. -/
theorem C3_cache_objects_then_load (parse : String → Option Json)
    (send : Int → Except String Response) (deser : String → Except String (Option T))
    (idOf : T → Int) (objects : List T) (w : World T) :
    (Client.cache_objects idOf objects w).netCalls = w.netCalls
    ∧ (∀ v, v ∈ objects → ∃ h : Handle T,
        (Client.cache_objects idOf objects w).cache.get (idOf v) = some h
        ∧ h.val ∈ objects ∧ idOf h.val = idOf v
        ∧ Client.load parse send deser (idOf v) (Client.cache_objects idOf objects w)
            = (.ok h, Client.cache_objects idOf objects w))
    ∧ ((objects.map idOf).Nodup → ∀ v, v ∈ objects → ∃ h : Handle T,
        (Client.cache_objects idOf objects w).cache.get (idOf v) = some h
        ∧ h.val = v
        ∧ Client.load parse send deser (idOf v) (Client.cache_objects idOf objects w)
            = (.ok h, Client.cache_objects idOf objects w)) := by
  refine ⟨Client.cache_objects_netCalls idOf objects w, ?_, ?_⟩
  · intro v hv
    rcases Client.cache_objects_get_cases idOf objects w (idOf v) with
      ⟨heq, hnone⟩ | ⟨h, hget, hmem, hid⟩
    · exact absurd rfl (hnone v hv)
    · exact ⟨h, hget, hmem, hid, Client.load_of_hit _ hget⟩
  · intro hnd v hv
    rcases Client.cache_objects_get_nodup idOf objects w hnd v hv with ⟨h, hget, hval⟩
    exact ⟨h, hget, hval, Client.load_of_hit _ hget⟩

/-- Witness for C3: caching the batch `[7, 9]` (each value its own id)
and then loading id 7 yields the cached value 7 without touching the
network (the network oracles error, yet `load` succeeds). -/
theorem C3_witness :
    (Client.cache_objects (fun n => (n : Int)) [7, 9] ⟨[], 0, 0⟩).cache.get 7
      = some ⟨7, 0⟩
    ∧ Client.load (fun _ => none) (fun _ => .error "no network")
        (fun _ => .error "no deser") 7
        (Client.cache_objects (fun n => (n : Int)) [7, 9] ⟨[], 0, 0⟩)
      = (.ok ⟨7, 0⟩, Client.cache_objects (fun n => (n : Int)) [7, 9] ⟨[], 0, 0⟩) := by
  obtain ⟨h, hget, hval, hload⟩ :=
    (C3_cache_objects_then_load (fun _ => none) (fun _ => .error "no network")
        (fun _ => .error "no deser") (fun n => (n : Int)) [7, 9] ⟨[], 0, 0⟩).2.2
      (by decide) 7 (by decide)
  have hc : (Client.cache_objects (fun n => (n : Int)) [7, 9]
      (⟨[], 0, 0⟩ : World Int)).cache.get 7 = some ⟨7, 0⟩ := rfl
  have hh := Option.some.inj (hget.symm.trans hc)
  subst hh
  exact ⟨hc, hload⟩

/-- Claim C8: when `fetch_inner` yields no value, `fetch(id)` fails with
the distinct not-found error whose message is `"entry not found"`, while
lower-level failures (transport, HTTP status, deserialization) propagate
as themselves; and the not-found case is exactly a success-status response
whose body deserializes to no value. -/
theorem C8_fetch_not_found (parse : String → Option Json)
    (send : Int → Except String Response) (deser : String → Except String (Option T))
    (id : Int) (w : World T) :
    (fetch_inner parse send deser id = .ok none →
        (Client.fetch parse send deser id w).1 = .error .notFound)
    ∧ FetchError.message .notFound = "entry not found"
    ∧ (∀ e, fetch_inner parse send deser id = .error e →
        (Client.fetch parse send deser id w).1 = .error (.req e))
    ∧ ((Client.fetch parse send deser id w).1 = .error .notFound ↔
        fetch_inner parse send deser id = .ok none)
    ∧ (fetch_inner parse send deser id = .ok none ↔
        ∃ r : Response, send id = .ok r ∧ statusIsSuccess r.status = true
          ∧ deser r.body = .ok none) := by
  refine ⟨?_, rfl, ?_, ?_, ?_⟩
  · intro h
    rw [Client.fetch_of_none w h]
  · intro e he
    rw [Client.fetch_of_error w he]
  · constructor
    · intro h
      cases hi : fetch_inner parse send deser id with
      | error e =>
        rw [Client.fetch_of_error w hi] at h
        simp at h
      | ok v =>
        cases v with
        | none => rfl
        | some x =>
          cases hc : w.cache.get id with
          | none =>
            rw [Client.fetch_of_some_miss w hi hc] at h
            simp at h
          | some hh =>
            rw [Client.fetch_of_some_hit w hi hc] at h
            simp at h
    · intro h
      rw [Client.fetch_of_none w h]
  · constructor
    · intro h
      cases hs : send id with
      | error m =>
        rw [fetch_inner, hs] at h
        simp at h
      | ok r =>
        rw [fetch_inner_of_send_ok parse deser hs] at h
        cases hss : statusIsSuccess r.status with
        | true =>
          simp only [recv_raw_success parse r hss] at h
          refine ⟨r, rfl, hss, ?_⟩
          cases hd : deser r.body with
          | error m => simp [hd] at h
          | ok v =>
            cases v with
            | none => rfl
            | some x => simp [hd] at h
        | false =>
          exfalso
          obtain ⟨m, hm⟩ := recv_raw_failure parse r hss
          simp [hm] at h
    · rintro ⟨r, hr, hss, hd⟩
      rw [fetch_inner_of_send_ok parse deser hr]
      simp [recv_raw_success parse r hss, hd]

/-- Witness for C8: a success-status response whose body deserializes to
`null` makes `fetch(7)` fail with the not-found error, whose message is
exactly `entry not found`. -/
theorem C8_witness :
    (Client.fetch (fun _ => none) (fun _ => .ok ⟨200, "null"⟩)
        (fun _ => .ok (none : Option Nat)) 7 ⟨[], 0, 0⟩).1 = .error .notFound
    ∧ FetchError.message .notFound = "entry not found" := by
  have h := C8_fetch_not_found (fun _ => none) (fun _ => .ok ⟨200, "null"⟩)
      (fun _ => .ok (none : Option Nat)) 7 ⟨[], 0, 0⟩
  exact ⟨h.1 rfl, h.2.1⟩

/-- Claim C9: under the registry invariant that each registry entry holds
the cache storage created for exactly the type it is keyed by, the
downcast of the untyped storage to the typed map succeeds in the shared
cache-access step of `load`, `fetch` and `cache_objects` — the fatal
`unreachable!()` branch taken on downcast failure is never executed — and
the invariant is preserved. -/
theorem C9_downcast_never_fails (Res : Nat → Type) (reg : Registry Res) (t : Nat)
    (hinv : RegistryInv Res reg) :
    (cache_access_step Res t reg).1.isSome = true
    ∧ RegistryInv Res (cache_access_step Res t reg).2 := by
  have hs := obtain_map_cache_spec Res t reg hinv
  exact ⟨downcast_of_tag Res t _ hs.1, hs.2⟩

/-- Witness for C9: on the empty registry (which trivially satisfies the
invariant), accessing the cache of the type tagged 0 downcasts
successfully. -/
theorem C9_witness :
    (cache_access_step (fun _ => Nat) 0 []).1.isSome = true :=
  (C9_downcast_never_fails (fun _ => Nat) [] 0
    (fun _ _ hm => absurd hm (List.not_mem_nil _))).1

end RenderLib
